import Mathlib

/-!
Verification development for `facebook_ads_scraper.py`.

The Python program is shallowly embedded below.  Python values that flow
through the data-processing code (JSON-decoded payloads, records, dicts,
lists, strings, integers, `None`, `bytes`) are modelled by the mutual
inductive family `PyVal` / `PyList` / `PyDict`; Python exceptions that the
code can raise are modelled by `PyErr`, and fallible Python code is
embedded as functions into `Except PyErr _`.

Scope of the model: scalar field values are strings, integers, `None` or
bytes; percent-escapes in URLs are decoded byte-wise (multi-byte UTF-8
escape sequences do not occur in any statement below); `pandas`
`to_datetime(·, unit='s')` is modelled on integers and integral strings,
the values exercised by the theorems.
-/

set_option autoImplicit false

/-- Python exceptions that the embedded code can raise. -/
inductive PyErr where
  | attributeError
  | typeError
  | valueError
  | keyError
  | indexError
  deriving DecidableEq, Repr

mutual

/-- A Python value as seen by the scraper's data pipeline. -/
inductive PyVal where
  | str (s : String)
  | int (n : Int)
  | pynone
  | bytes (s : String)
  | list (xs : PyList)
  | dict (kvs : PyDict)
  deriving DecidableEq, Repr

/-- A Python list of `PyVal`s (spine kept in the mutual family so that
all recursions over nested values are structural). -/
inductive PyList where
  | nil
  | cons (v : PyVal) (rest : PyList)
  deriving DecidableEq, Repr

/-- A Python dict with string keys (insertion order, unique keys). -/
inductive PyDict where
  | nil
  | cons (k : String) (v : PyVal) (rest : PyDict)
  deriving DecidableEq, Repr

end

def PyList.ofList : List PyVal → PyList
  | [] => .nil
  | v :: vs => .cons v (PyList.ofList vs)

def PyList.toList : PyList → List PyVal
  | .nil => []
  | .cons v vs => v :: PyList.toList vs

def PyDict.ofList : List (String × PyVal) → PyDict
  | [] => .nil
  | (k, v) :: kvs => .cons k v (PyDict.ofList kvs)

/-- Build a Python list value from a Lean list. -/
def pyList (xs : List PyVal) : PyVal := .list (PyList.ofList xs)

/-- Build a Python dict value from a Lean association list. -/
def pyDict (kvs : List (String × PyVal)) : PyVal := .dict (PyDict.ofList kvs)

/-- First binding of a key in a dict (keys are unique, so this is the
binding). -/
def PyDict.lookup : PyDict → String → Option PyVal
  | .nil, _ => none
  | .cons k v rest, key => if k = key then some v else PyDict.lookup rest key

/-- The keys of a dict, in order. -/
def PyDict.keys : PyDict → List String
  | .nil => []
  | .cons k _ rest => k :: PyDict.keys rest

/-- Python truthiness of a value. -/
def PyVal.truthy : PyVal → Bool
  | .str s => !(s = "")
  | .int n => !(n = 0)
  | .pynone => false
  | .bytes s => !(s = "")
  | .list .nil => false
  | .list (.cons _ _) => true
  | .dict .nil => false
  | .dict (.cons _ _ _) => true

/-- Python `v.get(key)`: `AttributeError` unless `v` is a dict, else the
key's value or `None`.  (`dict.get` returns `None` for a missing key.) -/
def PyVal.get (v : PyVal) (key : String) : Except PyErr (Option PyVal) :=
  match v with
  | .dict kvs => .ok (kvs.lookup key)
  | _ => .error .attributeError

/-- Python `v.get(key, dflt)`. -/
def PyVal.getD (v : PyVal) (key : String) (dflt : PyVal) : Except PyErr PyVal :=
  match v with
  | .dict kvs => .ok ((kvs.lookup key).getD dflt)
  | _ => .error .attributeError

/-- Python `key in v` for a dict `v` (the only shape it is applied to in
the embedded code; the code establishes dict-ness beforehand). -/
def PyVal.hasKey (v : PyVal) (key : String) : Except PyErr Bool :=
  match v with
  | .dict kvs => .ok ((kvs.lookup key).isSome)
  | _ => .error .typeError

/-- Python `v[0]` as used on `cards`/`images`/`videos` values: head of a
non-empty list, an error on anything else that the code can meet there
(`KeyError` on a dict, `IndexError` on an empty list, `TypeError`
otherwise). -/
def PyVal.index0 (v : PyVal) : Except PyErr PyVal :=
  match v with
  | .list (.cons x _) => .ok x
  | .list .nil => .error .indexError
  | .dict _ => .error .keyError
  | _ => .error .typeError

/-! ### Character-level string helpers (Python `str` semantics) -/

/-- Python `s.lstrip(chars)`: remove leading characters that belong to the
character SET `chars` (this is `str.lstrip`'s semantics — `chars` is a set
of characters, not a prefix). -/
def pyLstrip (chars : List Char) : List Char → List Char
  | [] => []
  | c :: rest => if c ∈ chars then pyLstrip chars rest else c :: rest

/-- Python `s.split(sep, 1)` for a single-character separator: the part
before the first occurrence, and (when the separator occurs) the part
after it. -/
def splitFirst (sep : Char) : List Char → List Char × Option (List Char)
  | [] => ([], none)
  | c :: rest =>
    if c = sep then ([], some rest)
    else
      let (pre, post) := splitFirst sep rest
      (c :: pre, post)

/-- Python `s.split(sep)` for a single-character separator (on an empty
string it yields one empty part, like Python). -/
def splitAll (sep : Char) : List Char → List (List Char)
  | [] => [[]]
  | c :: rest =>
    if c = sep then [] :: splitAll sep rest
    else
      match splitAll sep rest with
      | g :: gs => (c :: g) :: gs
      | [] => [[c]]

/-- Hex digit value of a character, if it is one. -/
def hexVal (c : Char) : Option Nat :=
  if '0' ≤ c ∧ c ≤ '9' then some (c.toNat - '0'.toNat)
  else if 'a' ≤ c ∧ c ≤ 'f' then some (c.toNat - 'a'.toNat + 10)
  else if 'A' ≤ c ∧ c ≤ 'F' then some (c.toNat - 'A'.toNat + 10)
  else none

/-- Python `urllib.parse.unquote_plus` restricted to byte-wise escapes:
`+` becomes a space, `%xy` with two hex digits becomes the character with
that code, an invalid escape is kept verbatim. -/
def unquotePlus : List Char → List Char
  | [] => []
  | '+' :: rest => ' ' :: unquotePlus rest
  | '%' :: a :: b :: rest =>
    match hexVal a, hexVal b with
    | some ha, some hb => Char.ofNat (16 * ha + hb) :: unquotePlus rest
    | _, _ => '%' :: unquotePlus (a :: b :: rest)
  | c :: rest => c :: unquotePlus rest

/-- Python `urllib.parse.parse_qsl(qs)` with its defaults
(`keep_blank_values=False`, separator `&`): split on `&`, drop empty
chunks, drop chunks without `=` and chunks whose value is empty, and
percent/plus-decode names and values. -/
def parse_qsl (qs : List Char) : List (List Char × List Char) :=
  (splitAll '&' qs).foldr
    (fun pair acc =>
      if pair = [] then acc
      else
        match splitFirst '=' pair with
        | (_, none) => acc
        | (name, some value) =>
          if value = [] then acc
          else (unquotePlus name, unquotePlus value) :: acc)
    []

/-- First value listed for a name among parsed query pairs. -/
def firstValue (key : List Char) : List (List Char × List Char) → Option (List Char)
  | [] => none
  | (n, v) :: rest => if n = key then some v else firstValue key rest

/-- Scheme characters allowed after the first letter of a URL scheme. -/
def isSchemeChar (c : Char) : Bool :=
  c.isAlpha || c.isDigit || c = '+' || c = '-' || c = '.'

/-- Remove a leading `scheme:` from a URL the way `urlsplit` does: only
when a `:` occurs and everything before it is a letter followed by
scheme characters. -/
def dropScheme (url : List Char) : List Char :=
  match splitFirst ':' url with
  | (pre, some post) =>
    match pre with
    | [] => url
    | c0 :: restPre =>
      if c0.isAlpha ∧ (restPre.all isSchemeChar) then post else url
  | (_, none) => url

/-- Leading run of characters of a netloc: everything up to the first
`/`, `?` or `#`. -/
def takeNetloc : List Char → List Char
  | [] => []
  | c :: rest =>
    if c = '/' ∨ c = '?' ∨ c = '#' then []
    else c :: takeNetloc rest

/-- The `netloc` component of `urllib.parse.urlparse`: after removing the
scheme, a netloc exists only behind a leading `//`. -/
def urlparseNetloc (url : List Char) : List Char :=
  match dropScheme url with
  | '/' :: '/' :: rest => takeNetloc rest
  | _ => []

/-- The `query` component of `urllib.parse.urlparse`: strip the fragment
at the first `#`, then the query is what follows the first `?` of the
rest.  (Scheme and netloc splitting only consume a prefix and never
contain `?`, so they cannot change this component.) -/
def urlparseQuery (url : List Char) : List Char :=
  let defrag := (splitFirst '#' url).1
  match splitFirst '?' defrag with
  | (_, some q) => q
  | (_, none) => []

/-- Embedding of `extract_from_url` (source lines 85-88):
`parse_qs(urlparse(url).query).get(key, [''])[0]`, i.e. the first value
of `key` in the query string, or `""` when the key is absent. -/
def extract_from_url (url : String) (key : String) : String :=
  match firstValue key.data (parse_qsl (urlparseQuery url.data)) with
  | some v => String.mk v
  | none => ""

/-- Embedding of `extract_domain` (source lines 90-92):
`urlparse(url).netloc`. -/
def extract_domain (url : String) : String :=
  String.mk (urlparseNetloc url.data)

/-! ### Dates: `pd.to_datetime(x, unit='s', errors='coerce').strftime('%Y-%m-%d')` -/

/-- Parse a Python string as an optionally signed integer (the integral
numeric strings accepted by `pd.to_datetime(·, unit='s')`; a non-numeric
string coerces to `NaT`). -/
def parseIntStr (s : List Char) : Option Int :=
  let digits : List Char → Option Nat := fun ds =>
    if ds = [] then none
    else if ds.all Char.isDigit then
      some (ds.foldl (fun acc c => 10 * acc + (c.toNat - '0'.toNat)) 0)
    else none
  match s with
  | '-' :: rest => (digits rest).map (fun n => -(n : Int))
  | '+' :: rest => (digits rest).map (fun n => (n : Int))
  | _ => (digits s).map (fun n => (n : Int))

/-- Largest epoch-second magnitude representable by a pandas nanosecond
timestamp (`2^63 / 10^9`, floored); beyond it `errors='coerce'` yields
`NaT`. -/
def pdMaxSeconds : Int := 9223372036

/-- Epoch seconds accepted by `pd.to_datetime(·, unit='s',
errors='coerce')` for the scalar shapes the scraper feeds it: integers
and integral strings inside the nanosecond-timestamp range parse; all
other values coerce to `NaT` (`none`). -/
def pdToDatetimeSecs (v : PyVal) : Option Int :=
  let inRange : Int → Option Int := fun n =>
    if -pdMaxSeconds ≤ n ∧ n ≤ pdMaxSeconds then some n else none
  match v with
  | .int n => inRange n
  | .str s =>
    match parseIntStr s.data with
    | some n => inRange n
    | none => none
  | _ => none

/-- Civil date from a day count relative to 1970-01-01 (Howard Hinnant's
`civil_from_days` algorithm, floor divisions throughout). -/
def civilFromDays (z0 : Int) : Int × Int × Int :=
  let z := z0 + 719468
  let era := z / 146097
  let doe := z - era * 146097
  let yoe := (doe - doe / 1460 + doe / 36524 - doe / 146096) / 365
  let y := yoe + era * 400
  let doy := doe - (365 * yoe + yoe / 4 - yoe / 100)
  let mp := (5 * doy + 2) / 153
  let d := doy - (153 * mp + 2) / 5 + 1
  let m := mp + (if mp < 10 then 3 else -9)
  (y + (if m ≤ 2 then 1 else 0), m, d)

/-- Left-pad a numeral with zeros. -/
def padNum (width : Nat) (n : Int) : String :=
  let s := toString n.natAbs
  let pad := String.mk (List.replicate (width - s.length) '0')
  (if n < 0 then "-" else "") ++ pad ++ s

/-- `strftime('%Y-%m-%d')` of the UTC timestamp at the given epoch
second. -/
def strftimeYMD (secs : Int) : String :=
  let (y, m, d) := civilFromDays (secs / 86400)
  padNum 4 y ++ "-" ++ padNum 2 m ++ "-" ++ padNum 2 d

/-- Embedding of one date field of `process_ads_data` (source lines
135-136): `pd.to_datetime(raw, unit='s', errors='coerce').strftime('%Y-%m-%d')
if raw else None`.  A falsy/absent raw value short-circuits to `None`; a
truthy value that fails to parse coerces to `NaT`, and `NaT.strftime`
raises `ValueError` (`NaTType does not support strftime`). -/
def dateField (raw : Option PyVal) : Except PyErr (Option String) :=
  match raw with
  | none => .ok none
  | some v =>
    if v.truthy then
      match pdToDatetimeSecs v with
      | some secs => .ok (some (strftimeYMD secs))
      | none => .error .valueError
    else .ok none

/-! ### Query Builder: `get_params_config` (source lines 17-41) -/

/-- A calendar date as handed to `get_params_config`
(`datetime.date` values from the UI). -/
structure PyDate where
  year : Nat
  month : Nat
  day : Nat
  deriving DecidableEq, Repr

/-- Python `date.strftime('%Y-%m-%d')`. -/
def PyDate.strftimeYMD (d : PyDate) : String :=
  padNum 4 d.year ++ "-" ++ padNum 2 d.month ++ "-" ++ padNum 2 d.day

/-- Python truthiness of an `Optional[str]` argument (`not query`):
falsy when `None` or empty. -/
def optStrTruthy : Option String → Bool
  | none => false
  | some s => !(s = "")

/-- Embedding of `get_params_config`: builds the first-page parameter
set, raising `ValueError` on a missing query (keyword mode), a missing
page id (page mode), or an unknown `config_type`. -/
def get_params_config (config_type : String) (session_id : String)
    (ad_status : String) (country : String) (start_date : PyDate)
    (end_date : PyDate) (page : Option String) (query : Option String)
    (v_value : String) : Except PyErr (List (String × String)) :=
  let common_params : List (String × String) :=
    [("session_id", session_id),
     ("count", "30"),
     ("active_status", if ad_status ≠ "Both" then ad_status.toUpper else "ALL"),
     ("ad_type", "all"),
     ("country[0]", country),
     ("media_type", "all"),
     ("start_date", start_date.strftimeYMD),
     ("end_date", end_date.strftimeYMD),
     ("v", v_value)]
  if config_type = "keyword" then
    if !optStrTruthy query then .error .valueError
    else .ok (("q", query.getD "") :: ("search_type", "keyword_exact_phrase") :: common_params)
  else if config_type = "page" then
    if !optStrTruthy page then .error .valueError
    else .ok (("view_all_page_id", page.getD "") :: ("search_type", "page") :: common_params)
  else .error .valueError

/-! ### `ensure_serializable` (source lines 94-101) -/

mutual

/-- Embedding of `ensure_serializable`: decode bytes to text, recurse
into dicts and lists, leave everything else alone. -/
def ensure_serializable : PyVal → PyVal
  | .bytes s => .str s
  | .dict kvs => .dict (ensure_serializableDict kvs)
  | .list xs => .list (ensure_serializableList xs)
  | v => v

def ensure_serializableList : PyList → PyList
  | .nil => .nil
  | .cons v rest => .cons (ensure_serializable v) (ensure_serializableList rest)

def ensure_serializableDict : PyDict → PyDict
  | .nil => .nil
  | .cons k v rest => .cons k (ensure_serializable v) (ensure_serializableDict rest)

end

/-! ### The Normalizer: `process_ads_data` (source lines 103-160) -/

/-- A `None`-or-string date field as stored into the record. -/
def optToPy : Option String → PyVal
  | none => .pynone
  | some s => .str s

/-- `urlparse` / `parse_qs` demand a string URL; any other value raises
(`TypeError` in the model). -/
def asUrlStr : PyVal → Except PyErr String
  | .str s => .ok s
  | _ => .error .typeError

/-- The `extracted_item` dict literal of source lines 138-157 (before
`ensure_serializable`), with its fields in source order. -/
def mkRecord (adid pageid pagename link_url body cta_text title
    original_image_url original_video_url caption : PyVal)
    (creation_time end_date : Option String) (collationCount : PyVal)
    (display_format link_description : PyVal)
    (domain keywords atxt : String) : PyVal :=
  pyDict
    [("adid", adid), ("pageid", pageid), ("pagename", pagename),
     ("link_url", link_url), ("body", body), ("cta_text", cta_text),
     ("title", title), ("original_image_url", original_image_url),
     ("original_video_url", original_video_url), ("caption", caption),
     ("creation_time", optToPy creation_time),
     ("end_date", optToPy end_date), ("collationCount", collationCount),
     ("display_format", display_format),
     ("link_description", link_description), ("domain", .str domain),
     ("keywords", .str keywords), ("atxt", .str atxt)]

/-- The seven content fields of a record, in source order: `link_url`,
image URL, video URL, `body`, `cta_text`, `title`, `link_description`. -/
abbrev ContentFields : Type :=
  PyVal × PyVal × PyVal × PyVal × PyVal × PyVal × PyVal

/-- The flat-snapshot branch of source lines 114-121: the content fields
live directly on `snapshot`, with `body` behind `markup.__html` and the
media URLs behind truthiness-guarded `images[0]`/`videos[0]`. -/
def flatFields (snapshot : PyVal) : Except PyErr ContentFields := do
  let link_url ← snapshot.getD "link_url" (.str "")
  let imagesOpt ← snapshot.get "images"
  let original_image_url ←
    if (imagesOpt.getD .pynone).truthy then do
      let images ← snapshot.getD "images" (pyList [pyDict []])
      let first ← images.index0
      first.getD "original_image_url" (.str "")
    else pure (PyVal.str "")
  let videosOpt ← snapshot.get "videos"
  let original_video_url ←
    if (videosOpt.getD .pynone).truthy then do
      let videos ← snapshot.getD "videos" (pyList [pyDict []])
      let first ← videos.index0
      first.getD "video_hd_url" (.str "")
    else pure (PyVal.str "")
  let body0 ← snapshot.getD "body" (pyDict [])
  let markup ← body0.getD "markup" (pyDict [])
  let body ← markup.getD "__html" (.str "")
  let cta_text ← snapshot.getD "cta_text" (.str "")
  let title ← snapshot.getD "title" (.str "")
  let link_description ← snapshot.getD "link_description" (.str "")
  pure (link_url, original_image_url, original_video_url, body,
        cta_text, title, link_description)

/-- The carded branch of source lines 122-130: `card = cards[0] if cards
else {}`, then the same field names on the card. -/
def cardFields (cards : PyVal) : Except PyErr ContentFields := do
  let card ← if cards.truthy then cards.index0 else pure (pyDict [])
  let link_url ← card.getD "link_url" (.str "")
  let original_image_url ← card.getD "original_image_url" (.str "")
  let original_video_url ← card.getD "video_hd_url" (.str "")
  let body ← card.getD "body" (.str "")
  let cta_text ← card.getD "cta_text" (.str "")
  let title ← card.getD "title" (.str "")
  let link_description ← card.getD "link_description" (.str "")
  pure (link_url, original_image_url, original_video_url, body,
        cta_text, title, link_description)

/-- Embedding of the per-record body of `process_ads_data` (source lines
111-158): pick the flat or carded snapshot variant, extract the content
fields, format the two date fields, and build the canonical record. -/
def extract_item (item : PyVal) : Except PyErr PyVal := do
  let snapshot ← item.getD "snapshot" (pyDict [])
  let cards ← snapshot.getD "cards" (pyList [pyDict []])
  let hasLink ← snapshot.hasKey "link_url"
  let fields ← if hasLink then flatFields snapshot else cardFields cards
  let (link_url, original_image_url, original_video_url, body,
       cta_text, title, link_description) := fields
  let creation_time_raw ← snapshot.get "creation_time"
  let end_date_raw ← item.get "endDate"
  let creation_time ← dateField creation_time_raw
  let end_date ← dateField end_date_raw
  let adid ← item.getD "adid" (.str "")
  let pageid ← item.getD "pageID" (.str "")
  let pagename ← item.getD "pageName" (.str "")
  let caption ← snapshot.getD "caption" (.str "")
  let collationCount ← item.getD "collationCount" (.int 0)
  let display_format ← snapshot.getD "display_format" (.str "")
  let luStr ← asUrlStr link_url
  .ok (ensure_serializable
    (mkRecord adid pageid pagename link_url body cta_text title
      original_image_url original_video_url caption creation_time end_date
      collationCount display_format link_description (extract_domain luStr)
      (extract_from_url luStr "sqs") (extract_from_url luStr "atxt")))

mutual

/-- Embedding of `process_ads_data` (source lines 103-160): walk the
input list; a list-shaped entry is flattened by recursing into each of
its elements (the code calls `process_ads_data([sub_item])`, i.e.
`process_single`), any other entry yields one canonical record. -/
def process_ads_data : PyList → Except PyErr (List PyVal)
  | .nil => .ok []
  | .cons (.list subs) rest => do
    let grouped ← process_group subs
    let tail ← process_ads_data rest
    .ok (grouped ++ tail)
  | .cons item rest => do
    let r ← extract_item item
    let tail ← process_ads_data rest
    .ok (r :: tail)

/-- The inner `for sub_item in item` loop of source lines 107-108. -/
def process_group : PyList → Except PyErr (List PyVal)
  | .nil => .ok []
  | .cons s ss => do
    let h ← process_single s
    let t ← process_group ss
    .ok (h ++ t)

/-- `process_ads_data([sub_item])` for a single entry (see
`process_ads_data_singleton` below for the equivalence). -/
def process_single : PyVal → Except PyErr (List PyVal)
  | .list subs => process_group subs
  | item => do
    let r ← extract_item item
    .ok [r]

end

deriving instance DecidableEq for Except

/-! ### The Paginator: `get_ads_data_for_domain` (source lines 49-83)

One loop iteration issues one request and consumes one server response.
A response is modelled by what `requests.post` / `json.loads` produce for
it: the transport layer raised; the body failed JSON decoding
(`json.JSONDecodeError`, the only exception the code catches); the body
decoded to a non-dict JSON value (so `data_json.get` on line 71 raises
`AttributeError`); the body decoded to a dict whose `payload` key holds a
non-dict value such as `null` (then `data_json.get('payload', {})`
returns that stored value — the default applies only to a missing key —
and the chained `.get('results')` raises `AttributeError`, uncaught); the
body decoded to a dict whose payload's `results` value is truthy but not
iterable (then `results.extend` on line 72 raises `TypeError`, uncaught);
or the body decoded to a dict summarised by its payload.  In the last
case `Payload.results` is the element sequence of the results value:
an absent `payload` key, and an absent or falsy `results` value, behave
exactly like an empty sequence (the truthiness test on line 71 fails and
the loop breaks before line 76), so they are modelled as
`results = []`. -/

/-- The decoded `payload` of one page. -/
structure Payload (α : Type) where
  results : List α
  forwardCursor : Option String
  collationToken : Option String
  deriving DecidableEq, Repr

/-- One server response as seen by one loop iteration.  `badPayload` is
a dict body whose `payload` value is present but not a dict
(`AttributeError` at line 71); `badResults` is a dict body whose
payload's `results` value is truthy but not iterable (`TypeError` at
line 72). -/
inductive SrvResp (α : Type) where
  | transportError
  | decodeFail
  | nonDict
  | badPayload
  | badResults
  | ok (p : Payload α)
  deriving DecidableEq, Repr

/-- How a run of the pagination loop can end relative to a finite stream
of modelled responses: return normally with the accumulated records, let
an uncaught exception escape, or still be looping after consuming every
modelled response. -/
inductive LoopResult (α : Type) where
  | done (acc : List α)
  | raised (acc : List α)
  | running (acc : List α)
  deriving DecidableEq, Repr

/-- Embedding of the `while True` loop of `get_ads_data_for_domain`
(source lines 55-83), record-accumulation view: decode failure breaks
with the records so far; an empty/absent results list breaks; a falsy
(`None` or empty) `forwardCursor` breaks after accumulating; a transport
error, a non-dict body, a non-dict `payload` value or a truthy
non-iterable `results` value raises; otherwise the loop continues. -/
def runPag {α : Type} : List (SrvResp α) → List α → LoopResult α
  | [], acc => .running acc
  | r :: rest, acc =>
    match r with
    | .transportError => .raised acc
    | .nonDict => .raised acc
    | .badPayload => .raised acc
    | .badResults => .raised acc
    | .decodeFail => .done acc
    | .ok p =>
      if p.results.isEmpty then .done acc
      else
        match p.forwardCursor with
        | none => .done (acc ++ p.results)
        | some c =>
          if c = "" then .done (acc ++ p.results)
          else runPag rest (acc ++ p.results)

/-- A response on which the loop keeps going: a dict body with a
non-empty results list and a truthy `forwardCursor`. -/
def contResp {α : Type} : SrvResp α → Bool
  | .ok p => !p.results.isEmpty && (match p.forwardCursor with
      | some c => !(c = "")
      | none => false)
  | _ => false

/-- A response on which the loop breaks normally: a decode failure, or a
dict body with an empty/absent results list or a falsy `forwardCursor`. -/
def stopResp {α : Type} : SrvResp α → Bool
  | .decodeFail => true
  | .ok p => p.results.isEmpty || (match p.forwardCursor with
      | some c => c = ""
      | none => true)
  | _ => false

/-- A response on which an exception escapes the loop. -/
def raiseResp {α : Type} : SrvResp α → Bool
  | .transportError => true
  | .nonDict => true
  | .badPayload => true
  | .badResults => true
  | _ => false

def LoopResult.isDone {α : Type} : LoopResult α → Bool
  | .done _ => true
  | _ => false

def LoopResult.isRaised {α : Type} : LoopResult α → Bool
  | .raised _ => true
  | _ => false

/-- The request parameter set: the first-page parameters from
`get_params_config` (which never contain cursor keys), plus the
`forward_cursor`/`collation_token` pair once `params.update` on source
line 57 has run (the collation token may be Python `None`). -/
structure ReqParams where
  base : List (String × String)
  cursor : Option (String × Option String)
  deriving DecidableEq, Repr

/-- `params.update({'forward_cursor': ..., 'collation_token': ...})`. -/
def setCursorParams (p : ReqParams) (fc : String) (ct : Option String) : ReqParams :=
  { p with cursor := some (fc, ct) }

/-- Request-trace view of the same loop: the parameter set used by each
issued request, starting from the state variables `forward_cursor = ''`
and `collation_token = ''` (source lines 52-53).  `params` is mutated in
place, so the update on line 57 persists into later iterations. -/
def reqTrace {α : Type} : List (SrvResp α) → ReqParams → String → Option String → List ReqParams
  | [], _, _, _ => []
  | r :: rest, p, fc, ct =>
    let p' := if fc = "" then p else setCursorParams p fc ct
    p' :: (match r with
           | .ok pay =>
             if pay.results.isEmpty then []
             else
               match pay.forwardCursor with
               | none => []
               | some c =>
                 if c = "" then [] else reqTrace rest p' c pay.collationToken
           | _ => [])

/-! ### Response-body handling before decoding (source line 65) -/

/-- Embedding of `response.text.lstrip('for (;;);')` on source line 65:
`str.lstrip` removes leading characters drawn from the character set
`{'f','o','r',' ','(',';',')'}`. -/
def strip_response_text (body : String) : String :=
  String.mk (pyLstrip "for (;;);".data body.data)

/-- Modelled from the spec's words ("strip a fixed anti-JSON-hijacking
prefix from the raw response body"): remove the literal prefix
`for (;;);` when present, return the body unchanged otherwise.  Kept
separate so it can be compared against what line 65 actually computes. -/
def specStripHijack (body : String) : String :=
  if body.data.take 9 = "for (;;);".data then String.mk (body.data.drop 9)
  else body

/-! ### Paginator lemmas -/

/-- Helper: a bind in `Except` succeeds only through a successful first
step. -/
theorem bind_ok {α β : Type} {e : Except PyErr α} {f : α → Except PyErr β}
    {b : β} (h : (e >>= f) = .ok b) : ∃ a, e = .ok a ∧ f a = .ok b := by
  cases e with
  | error err => simp [Bind.bind, Except.bind] at h
  | ok a => exact ⟨a, rfl, by simpa [Bind.bind, Except.bind] using h⟩

/-- The loop returns normally exactly when the stream reaches (past
continuing pages) a response that is a normal break: decode failure,
empty/absent results, or falsy cursor. -/
theorem runPag_done_iff {α : Type} (pages : List (SrvResp α)) (acc : List α) :
    (runPag pages acc).isDone = true ↔
      ∃ r rest, pages.dropWhile contResp = r :: rest ∧ stopResp r = true := by
  induction pages generalizing acc with
  | nil => simp [runPag, LoopResult.isDone]
  | cons p ps ih =>
    cases p with
    | transportError =>
      simp [runPag, LoopResult.isDone, List.dropWhile_cons, contResp, stopResp]
    | nonDict =>
      simp [runPag, LoopResult.isDone, List.dropWhile_cons, contResp, stopResp]
    | badPayload =>
      simp [runPag, LoopResult.isDone, List.dropWhile_cons, contResp, stopResp]
    | badResults =>
      simp [runPag, LoopResult.isDone, List.dropWhile_cons, contResp, stopResp]
    | decodeFail =>
      simp [runPag, LoopResult.isDone, List.dropWhile_cons, contResp, stopResp]
    | ok pay =>
      by_cases he : pay.results.isEmpty
      · simp [runPag, he, LoopResult.isDone, List.dropWhile_cons, contResp, stopResp]
      · cases hc : pay.forwardCursor with
        | none =>
          simp [runPag, he, hc, LoopResult.isDone, List.dropWhile_cons, contResp, stopResp]
        | some c =>
          by_cases hcc : c = ""
          · subst hcc
            simp [runPag, he, hc, LoopResult.isDone, List.dropWhile_cons, contResp, stopResp]
          · simp [runPag, he, hc, hcc, List.dropWhile_cons, contResp, stopResp, ih]

/-- The loop lets an exception escape exactly when the stream reaches
(past continuing pages) a transport error or a non-dict body. -/
theorem runPag_raised_iff {α : Type} (pages : List (SrvResp α)) (acc : List α) :
    (runPag pages acc).isRaised = true ↔
      ∃ r rest, pages.dropWhile contResp = r :: rest ∧ raiseResp r = true := by
  induction pages generalizing acc with
  | nil => simp [runPag, LoopResult.isRaised]
  | cons p ps ih =>
    cases p with
    | transportError =>
      simp [runPag, LoopResult.isRaised, List.dropWhile_cons, contResp, raiseResp]
    | nonDict =>
      simp [runPag, LoopResult.isRaised, List.dropWhile_cons, contResp, raiseResp]
    | badPayload =>
      simp [runPag, LoopResult.isRaised, List.dropWhile_cons, contResp, raiseResp]
    | badResults =>
      simp [runPag, LoopResult.isRaised, List.dropWhile_cons, contResp, raiseResp]
    | decodeFail =>
      simp [runPag, LoopResult.isRaised, List.dropWhile_cons, contResp, raiseResp]
    | ok pay =>
      by_cases he : pay.results.isEmpty
      · simp [runPag, he, LoopResult.isRaised, List.dropWhile_cons, contResp, raiseResp]
      · cases hc : pay.forwardCursor with
        | none =>
          simp [runPag, he, hc, LoopResult.isRaised, List.dropWhile_cons, contResp, raiseResp]
        | some c =>
          by_cases hcc : c = ""
          · subst hcc
            simp [runPag, he, hc, LoopResult.isRaised, List.dropWhile_cons, contResp, raiseResp]
          · simp [runPag, he, hc, hcc, List.dropWhile_cons, contResp, raiseResp, ih]

/-- C1 (counterexample): the claim says the loop never terminates on a
page whose results list is non-empty, whose `forwardCursor` is present
and whose body decoded; but a page carrying the present-but-empty cursor
`""` terminates the loop (`if not forward_cursor: break` tests
truthiness, not presence). -/
theorem c1_counterexample :
    runPag [SrvResp.ok ⟨[0], some "", some "t"⟩] ([] : List Nat) = .done [0]
    ∧ (⟨[0], some "", some "t"⟩ : Payload Nat).results ≠ []
    ∧ (⟨[0], some "", some "t"⟩ : Payload Nat).forwardCursor.isSome = true
    ∧ (SrvResp.ok (⟨[0], some "", some "t"⟩ : Payload Nat)) ≠ SrvResp.decodeFail := by
  decide

/-- C1 (amended): the pagination loop returns normally if and only if the
response stream reaches — after zero or more pages with a non-empty
results list and a truthy (present and non-empty) `forwardCursor` — a
page that fails JSON decoding, has an empty or absent results list, or
has an absent-or-empty `forwardCursor`; on a stream whose pages all have
non-empty results and truthy cursors the loop never breaks.  (A transport
error, a non-dict body, a dict body whose `payload` value is not a dict,
or a truthy non-iterable `results` value instead ends the loop by an
uncaught exception, never by a normal return.) -/
theorem c1_pagination_termination {α : Type} (pages : List (SrvResp α)) (acc : List α) :
    (runPag pages acc).isDone = true ↔
      ∃ r rest, pages.dropWhile contResp = r :: rest ∧ stopResp r = true :=
  runPag_done_iff pages acc

/-- Records contributed by one response (a decoded page's results; other
responses contribute nothing). -/
def resultsOf {α : Type} : SrvResp α → List α
  | .ok p => p.results
  | _ => []

/-- Running the loop into a decode failure after well-formed continuing
pages returns all records accumulated before the failure. -/
theorem runPag_decodeFail {α : Type} (good : List (SrvResp α))
    (rest : List (SrvResp α)) (acc : List α)
    (h : ∀ r ∈ good, contResp r = true) :
    runPag (good ++ SrvResp.decodeFail :: rest) acc
      = .done (acc ++ (good.map resultsOf).flatten) := by
  induction good generalizing acc with
  | nil => simp [runPag]
  | cons g gs ih =>
    have hg := h g (by simp)
    cases g with
    | transportError => simp [contResp] at hg
    | nonDict => simp [contResp] at hg
    | badPayload => simp [contResp] at hg
    | badResults => simp [contResp] at hg
    | decodeFail => simp [contResp] at hg
    | ok pay =>
      simp only [contResp, Bool.and_eq_true, Bool.not_eq_true'] at hg
      obtain ⟨he, hc⟩ := hg
      cases hcur : pay.forwardCursor with
      | none => rw [hcur] at hc; simp at hc
      | some c =>
        rw [hcur] at hc
        simp only [Bool.not_eq_true'] at hc
        have hcc : ¬(c = "") := by
          intro hh; rw [hh] at hc; simp at hc
        simp only [List.cons_append, runPag, he, hcur, hcc, if_neg hcc,
          Bool.false_eq_true, if_false]
        rw [List.append_eq, ih _ (fun r hr => h r (List.mem_cons_of_mem _ hr))]
        simp [resultsOf, List.append_assoc]

/-- C3 (counterexample): the claim says `get_ads_data_for_domain` never
raises past its boundary, even for transport errors; but only
`json.JSONDecodeError` is caught (source line 66), so a transport error
from `requests.post` escapes as an uncaught exception with no return
value — and `main` has no per-item handler, so it aborts the whole
batch.  Likewise the dict body whose `payload` value is `null`: it
decodes fine, yet `data_json.get('payload', {})` returns the stored
`None` (the default applies only to a missing key) and the chained
`.get('results')` on line 71 raises `AttributeError` past the
boundary. -/
theorem c3_counterexample :
    runPag [SrvResp.transportError] ([] : List Nat) = .raised []
    ∧ runPag [SrvResp.badPayload] ([] : List Nat) = .raised [] := by
  decide

/-- C3 (amended): only JSON decode failures are contained.  For every
response stream free of raising responses — transport errors, non-dict
JSON bodies, dict bodies whose `payload` value is present but not a
dict, and payloads whose truthy `results` value is not iterable — the
loop never lets an exception escape, and when the stream is well-formed
continuing pages followed by a decode failure it returns exactly the
records accumulated before the failure (the error is reported to the UI,
not returned).  Any of the raising responses, by contrast, escapes past
the function's boundary. -/
theorem c3_error_containment {α : Type} (pages : List (SrvResp α)) (acc : List α)
    (h : ∀ r ∈ pages, raiseResp r = false) :
    (runPag pages acc).isRaised = false
    ∧ ∀ good rest, pages = good ++ SrvResp.decodeFail :: rest →
        (∀ r ∈ good, contResp r = true) →
        runPag pages acc = .done (acc ++ (good.map resultsOf).flatten) := by
  constructor
  · rw [Bool.eq_false_iff]
    intro hr
    obtain ⟨r, rest, hdrop, hraise⟩ := (runPag_raised_iff pages acc).mp hr
    have hmem : r ∈ pages := by
      have : r ∈ pages.dropWhile contResp := by rw [hdrop]; simp
      exact List.dropWhile_subset _ this
    rw [h r hmem] at hraise
    exact Bool.false_ne_true hraise
  · intro good rest hsplit hcont
    rw [hsplit]
    exact runPag_decodeFail good rest acc hcont

/-- C3 (witness): a concrete stream — one well-formed page then a decode
failure — returns the first page's records without raising. -/
theorem c3_witness :
    runPag [SrvResp.ok ⟨[5], some "c", none⟩, SrvResp.decodeFail] ([] : List Nat)
      = .done [5] := by
  have h := c3_error_containment
    [SrvResp.ok ⟨[5], some "c", none⟩, SrvResp.decodeFail] ([] : List Nat)
    (by decide)
  simpa using h.2 [SrvResp.ok ⟨[5], some "c", none⟩] [] rfl (by decide)

/-- The first request of a non-empty trace carries the entry parameters,
updated with the entry cursor state when that state is truthy. -/
theorem reqTrace_cons_head {α : Type} (r : SrvResp α) (rest : List (SrvResp α))
    (p : ReqParams) (fc : String) (ct : Option String) :
    (reqTrace (r :: rest) p fc ct).head?
      = some (if fc = "" then p else setCursorParams p fc ct) := rfl

/-- Every request after the first in a trace is caused by a continuing
page and carries exactly that page's cursor pair on top of the unchanged
base parameters. -/
theorem reqTrace_succ {α : Type} (pages : List (SrvResp α)) :
    ∀ (p : ReqParams) (fc : String) (ct : Option String) (i : Nat),
      i + 1 < (reqTrace pages p fc ct).length →
      ∃ pay c, pages.get? i = some (.ok pay) ∧ pay.forwardCursor = some c
        ∧ ¬(c = "")
        ∧ (reqTrace pages p fc ct).get? (i + 1)
            = some ⟨p.base, some (c, pay.collationToken)⟩ := by
  induction pages with
  | nil => intro p fc ct i h; simp [reqTrace] at h
  | cons r rest ih =>
    intro p fc ct i h
    cases r with
    | transportError => simp [reqTrace] at h
    | nonDict => simp [reqTrace] at h
    | badPayload => simp [reqTrace] at h
    | badResults => simp [reqTrace] at h
    | decodeFail => simp [reqTrace] at h
    | ok pay =>
      by_cases he : pay.results.isEmpty
      · simp [reqTrace, he] at h
      · cases hcur : pay.forwardCursor with
        | none => simp [reqTrace, he, hcur] at h
        | some c =>
          by_cases hcc : c = ""
          · simp [reqTrace, he, hcur, hcc] at h
          · have hbase : (if fc = "" then p else setCursorParams p fc ct).base = p.base := by
              by_cases hfc : fc = "" <;> simp [hfc, setCursorParams]
            set p' := if fc = "" then p else setCursorParams p fc ct with hp'
            have htr : reqTrace (SrvResp.ok pay :: rest) p fc ct
                = p' :: reqTrace rest p' c pay.collationToken := by
              simp [reqTrace, he, hcur, hcc, hp']
            cases i with
            | zero =>
              rw [htr] at h ⊢
              cases rest with
              | nil => simp [reqTrace] at h
              | cons r2 rest2 =>
                refine ⟨pay, c, rfl, hcur, hcc, ?_⟩
                rw [List.get?_cons_succ, List.get?_zero,
                  reqTrace_cons_head r2 rest2 p' c pay.collationToken]
                simp [hcc, setCursorParams, hbase]
            | succ n =>
              rw [htr] at h ⊢
              simp only [List.length_cons, add_lt_add_iff_right] at h
              obtain ⟨pay2, c2, h1, h2, h3, h4⟩ :=
                ih p' c pay.collationToken n (by omega)
              refine ⟨pay2, c2, by simpa using h1, h2, h3, ?_⟩
              simp only [List.get?_cons_succ]
              rw [h4, hbase]

/-- C2: in every pagination chain the first request's parameter set is
exactly the cursor-free initial set (`get_params_config` output carries
no `forward_cursor`/`collation_token` keys, and the state variable
`forward_cursor` starts as `''`, so the line-57 update is skipped on the
first iteration); and every subsequent request carries exactly the
`forwardCursor` and `collationToken` values of the immediately preceding
decoded page over the unchanged base parameters. -/
theorem c2_cursor_params {α : Type} (pages : List (SrvResp α)) (p0 : ReqParams)
    (h0 : p0.cursor = none) :
    (pages = [] ∨ (reqTrace pages p0 "" none).head? = some ⟨p0.base, none⟩)
    ∧ ∀ i, i + 1 < (reqTrace pages p0 "" none).length →
        ∃ pay c, pages.get? i = some (.ok pay) ∧ pay.forwardCursor = some c
          ∧ ¬(c = "")
          ∧ (reqTrace pages p0 "" none).get? (i + 1)
              = some ⟨p0.base, some (c, pay.collationToken)⟩ := by
  constructor
  · cases pages with
    | nil => exact Or.inl rfl
    | cons r rest =>
      refine Or.inr ?_
      rw [reqTrace_cons_head, if_pos rfl]
      obtain ⟨b, cur⟩ := p0
      have hcur : cur = none := h0
      subst hcur
      rfl
  · intro i h
    exact reqTrace_succ pages p0 "" none i h

/-- C2 (witness): a two-page chain whose first page returns cursor `c1`
and token `t1`; the second request carries exactly that pair. -/
theorem c2_witness :
    (reqTrace [SrvResp.ok (⟨[1], some "c1", some "t1"⟩ : Payload Nat),
               SrvResp.ok ⟨[2], none, none⟩] ⟨[("q", "x")], none⟩ "" none).get? 1
      = some ⟨[("q", "x")], some ("c1", some "t1")⟩ := by
  obtain ⟨pay, c, h1, h2, h3, h4⟩ :=
    (c2_cursor_params
      [SrvResp.ok (⟨[1], some "c1", some "t1"⟩ : Payload Nat),
       SrvResp.ok ⟨[2], none, none⟩] ⟨[("q", "x")], none⟩ rfl).2 0 (by decide)
  have hpay : pay = ⟨[1], some "c1", some "t1"⟩ := by
    simp only [List.get?_cons_zero, Option.some.injEq, SrvResp.ok.injEq] at h1
    exact h1.symm
  subst hpay
  have hc : c = "c1" := by simpa using h2.symm
  subst hc
  simpa using h4

/-- C4 (code bug): source line 65 calls `str.lstrip('for (;;);')`, which
removes leading characters drawn from the set {f, o, r, space, (, ;, )}
rather than the literal prefix.  On the prefix-free JSON body `false` the
decoder is handed `alse` — not the unchanged body the claim (and the
spec's prefix-stripping intent, followed by `specStripHijack`) requires.
On a real prefixed object body the two agree, which is why the slip goes
unnoticed in production. -/
theorem c4_lstrip_is_charset_strip :
    strip_response_text "false" = "alse"
    ∧ specStripHijack "false" = "false"
    ∧ strip_response_text "false" ≠ specStripHijack "false"
    ∧ strip_response_text "for (;;);[1, 2]" = "[1, 2]"
    ∧ specStripHijack "for (;;);[1, 2]" = "[1, 2]" := by
  decide

/-- C5 (code bug): a present-but-unparsable `creation_time` makes
`pd.to_datetime(..., errors='coerce')` return `NaT`, and the unguarded
`.strftime('%Y-%m-%d')` on source line 135 then raises
`ValueError: NaTType does not support strftime` — the record is not
produced with an absent date as the claim requires.  A present parseable
epoch value is formatted `YYYY-MM-DD`, and an absent/falsy value yields
`None`, as claimed. -/
theorem c5_unparsable_date_raises :
    process_ads_data (PyList.ofList
      [pyDict [("snapshot", pyDict [("creation_time", PyVal.str "oops")])]])
      = .error .valueError
    ∧ dateField (some (PyVal.str "oops")) = .error .valueError
    ∧ dateField (some (PyVal.int 1700000000)) = .ok (some "2023-11-14")
    ∧ dateField none = .ok none := by
  decide

/-- Whether an embedded call raised. -/
def exceptIsError {β : Type} : Except PyErr β → Bool
  | .error _ => true
  | .ok _ => false

/-- C9 (counterexample): with mode `"pages"` — neither `keyword` nor
`page` — and both a query and an identifier supplied, neither of the
claim's failure conditions holds, so the claim promises the parameter set
is returned without raising; the code instead raises
`ValueError('Invalid config type...')`. -/
theorem c9_counterexample :
    get_params_config "pages" "sid" "Both" "US" ⟨2024, 1, 1⟩ ⟨2024, 1, 2⟩
      (some "pg") (some "q") "2c4a00" = .error .valueError := by
  decide

/-- C9 (amended): `get_params_config` raises (before any network call —
the embedding is pure construction) exactly when the mode is `keyword`
with a falsy (absent or empty) query, the mode is `page` with a falsy
identifier, or the mode is neither `keyword` nor `page`; otherwise it
returns the parameter set. -/
theorem c9_invalid_input_iff (config_type session_id ad_status country : String)
    (start_date end_date : PyDate) (page query : Option String) (v_value : String) :
    exceptIsError (get_params_config config_type session_id ad_status country
        start_date end_date page query v_value) = true
      ↔ (config_type = "keyword" ∧ optStrTruthy query = false)
        ∨ (config_type = "page" ∧ optStrTruthy page = false)
        ∨ (¬config_type = "keyword" ∧ ¬config_type = "page") := by
  unfold get_params_config
  by_cases h1 : config_type = "keyword"
  · by_cases h2 : optStrTruthy query = true
    · simp [h1, h2, exceptIsError]
    · simp only [Bool.not_eq_true] at h2
      simp [h1, h2, exceptIsError]
  · by_cases h3 : config_type = "page"
    · by_cases h4 : optStrTruthy page = true
      · simp [h1, h3, h4, exceptIsError]
      · simp only [Bool.not_eq_true] at h4
        simp [h1, h3, h4, exceptIsError]
    · simp [h1, h3, exceptIsError]

/-! ### Query-string lemmas (C8) -/

/-- Looking up a key in a (possibly non-dict) value, as used to state
facts about produced records. -/
def dictLookup (v : PyVal) (key : String) : Option PyVal :=
  match v with
  | .dict kvs => kvs.lookup key
  | _ => none

theorem splitFirst_not_mem (sep : Char) (l : List Char) (h : sep ∉ l) :
    splitFirst sep l = (l, none) := by
  induction l with
  | nil => rfl
  | cons c rest ih =>
    simp only [List.mem_cons, not_or] at h
    obtain ⟨hc, hrest⟩ := h
    have hcs : ¬(c = sep) := fun hh => hc hh.symm
    simp [splitFirst, hcs, ih hrest]

theorem splitFirst_append (sep : Char) (l1 l2 : List Char) (h : sep ∉ l1) :
    splitFirst sep (l1 ++ sep :: l2) = (l1, some l2) := by
  induction l1 with
  | nil => simp [splitFirst]
  | cons c rest ih =>
    simp only [List.mem_cons, not_or] at h
    obtain ⟨hc, hrest⟩ := h
    have hcs : ¬(c = sep) := fun hh => hc hh.symm
    simp [splitFirst, hcs, ih hrest]

theorem urlparseQuery_concat (base qs : List Char) (h1 : '?' ∉ base)
    (h2 : '#' ∉ base) (h3 : '#' ∉ qs) :
    urlparseQuery (base ++ '?' :: qs) = qs := by
  have hh : '#' ∉ base ++ '?' :: qs := by
    intro hmem
    rcases List.mem_append.mp hmem with hb | hq
    · exact h2 hb
    · rcases List.mem_cons.mp hq with hc | hqs
      · exact absurd hc (by decide)
      · exact h3 hqs
  unfold urlparseQuery
  rw [splitFirst_not_mem '#' _ hh]
  show (match splitFirst '?' (base ++ '?' :: qs) with
        | (_, some q) => q
        | (_, none) => []) = qs
  rw [splitFirst_append '?' base qs h1]

theorem firstValue_eq_none (k : List Char)
    (l : List (List Char × List Char)) (h : ∀ p ∈ l, ¬p.1 = k) :
    firstValue k l = none := by
  induction l with
  | nil => rfl
  | cons p rest ih =>
    obtain ⟨n, v⟩ := p
    have hn : ¬n = k := h (n, v) (by simp)
    simp [firstValue, hn, ih (fun q hq => h q (List.mem_cons_of_mem _ hq))]

/-- A key that names no pair of the parsed query string extracts the
empty string. -/
theorem extract_from_url_absent (url key : String)
    (h : ∀ p ∈ parse_qsl (urlparseQuery url.data), ¬p.1 = key.data) :
    extract_from_url url key = "" := by
  unfold extract_from_url
  rw [firstValue_eq_none key.data _ h]

/-- C8: for every link URL formed from a query-free, fragment-free base
and the query string `sqs=abc&atxt=def`, the canonical record produced by
`process_ads_data` carries `keywords = "abc"` and `atxt = "def"`; and for
every URL and key, if no pair of the parsed query string bears the key,
the extracted field is the empty string. -/
theorem c8_keywords_atxt (base : String) (h1 : '?' ∉ base.data)
    (h2 : '#' ∉ base.data) :
    extract_from_url (base ++ "?sqs=abc&atxt=def") "sqs" = "abc"
    ∧ extract_from_url (base ++ "?sqs=abc&atxt=def") "atxt" = "def"
    ∧ (process_ads_data (PyList.ofList [pyDict [("snapshot",
         pyDict [("link_url", PyVal.str (base ++ "?sqs=abc&atxt=def"))])]])).map
         (fun recs => recs.map (fun r => (dictLookup r "keywords", dictLookup r "atxt")))
       = .ok [(some (.str "abc"), some (.str "def"))]
    ∧ (∀ url key : String,
        (∀ p ∈ parse_qsl (urlparseQuery url.data), ¬p.1 = key.data) →
        extract_from_url url key = "") := by
  have hq : urlparseQuery (base ++ "?sqs=abc&atxt=def").data
      = "sqs=abc&atxt=def".data := by
    rw [String.data_append]
    have hlit : ("?sqs=abc&atxt=def").data = '?' :: "sqs=abc&atxt=def".data := rfl
    rw [hlit]
    exact urlparseQuery_concat base.data _ h1 h2 (by decide)
  have ha : extract_from_url (base ++ "?sqs=abc&atxt=def") "sqs" = "abc" := by
    unfold extract_from_url
    rw [hq]
    decide
  have hb : extract_from_url (base ++ "?sqs=abc&atxt=def") "atxt" = "def" := by
    unfold extract_from_url
    rw [hq]
    decide
  refine ⟨ha, hb, ?_, fun url key h => extract_from_url_absent url key h⟩
  have hrec : process_ads_data (PyList.ofList [pyDict [("snapshot",
      pyDict [("link_url", PyVal.str (base ++ "?sqs=abc&atxt=def"))])]])
      = .ok [ensure_serializable (mkRecord (.str "") (.str "") (.str "")
          (.str (base ++ "?sqs=abc&atxt=def")) (.str "") (.str "") (.str "")
          (.str "") (.str "") (.str "") none none (.int 0) (.str "") (.str "")
          (extract_domain (base ++ "?sqs=abc&atxt=def"))
          (extract_from_url (base ++ "?sqs=abc&atxt=def") "sqs")
          (extract_from_url (base ++ "?sqs=abc&atxt=def") "atxt"))] := rfl
  rw [hrec]
  show Except.ok
      [(some (PyVal.str (extract_from_url (base ++ "?sqs=abc&atxt=def") "sqs")),
        some (PyVal.str (extract_from_url (base ++ "?sqs=abc&atxt=def") "atxt")))]
    = _
  rw [ha, hb]

/-- C8 (witness): the concrete base `https://x.com/p`. -/
theorem c8_witness :
    extract_from_url ("https://x.com/p" ++ "?sqs=abc&atxt=def") "sqs" = "abc" :=
  (c8_keywords_atxt "https://x.com/p" (by decide) (by decide)).1

/-- Reducing a bind whose first component is a success. -/
theorem exceptOkBind {A B : Type} (a : A) (f : A → Except PyErr B) :
    (Except.ok a >>= f) = f a := rfl

/-- C10 (counterexample): the claim quantifies over every record whose
snapshot lacks `link_url` and whose cards are absent or empty; one such
record with a present-but-unparsable `creation_time` makes
`process_ads_data` raise through the line-135 date bug instead of
succeeding. -/
theorem c10_counterexample :
    process_ads_data (PyList.ofList
      [pyDict [("snapshot", pyDict [("creation_time", PyVal.str "bad-date")])]])
      = .error .valueError
    ∧ dictLookup (pyDict [("creation_time", PyVal.str "bad-date")]) "link_url" = none
    ∧ dictLookup (pyDict [("creation_time", PyVal.str "bad-date")]) "cards" = none := by
  decide

/-- The canonical record produced for a card-less, `link_url`-less
record: metadata looked up on the item, every content field the empty
string. -/
def defaultCardRecord (ikvs snap : PyDict) (ct ed : Option String) : PyVal :=
  ensure_serializable (mkRecord
    ((ikvs.lookup "adid").getD (.str ""))
    ((ikvs.lookup "pageID").getD (.str ""))
    ((ikvs.lookup "pageName").getD (.str ""))
    (.str "") (.str "") (.str "") (.str "") (.str "") (.str "")
    ((snap.lookup "caption").getD (.str ""))
    ct ed
    ((ikvs.lookup "collationCount").getD (.int 0))
    ((snap.lookup "display_format").getD (.str ""))
    (.str "")
    (extract_domain "") (extract_from_url "" "sqs") (extract_from_url "" "atxt"))

/-- C10 (amended): for every raw record whose snapshot lacks a
`link_url` key, whose `cards` entry is absent or the empty list, and
whose `creation_time`/`endDate` values do not trip the line-135 date
failure, `process_ads_data` succeeds and produces one canonical record
whose content fields (`link_url`, `body`, `cta_text`, `title`, image
URL, video URL, `link_description`) are all the empty string. -/
theorem cardFields_one_empty_card :
    cardFields (pyList [pyDict []])
      = .ok (.str "", .str "", .str "", .str "", .str "", .str "", .str "") := rfl

theorem cardFields_empty_cards :
    cardFields (pyList [])
      = .ok (.str "", .str "", .str "", .str "", .str "", .str "", .str "") := rfl

theorem extract_item_cardless (ikvs snap : PyDict) (ct ed : Option String)
    (hs : (ikvs.lookup "snapshot").getD (pyDict []) = .dict snap)
    (hlink : snap.lookup "link_url" = none)
    (hcards : snap.lookup "cards" = none ∨ snap.lookup "cards" = some (pyList []))
    (hct : dateField (snap.lookup "creation_time") = .ok ct)
    (hed : dateField (ikvs.lookup "endDate") = .ok ed) :
    extract_item (.dict ikvs) = .ok (defaultCardRecord ikvs snap ct ed) := by
  have e1 : PyVal.getD (.dict ikvs) "snapshot" (pyDict []) = .ok (.dict snap) := by
    show Except.ok ((ikvs.lookup "snapshot").getD (pyDict [])) = _
    rw [hs]
  have e3 : PyVal.hasKey (.dict snap) "link_url" = .ok false := by
    show Except.ok ((snap.lookup "link_url").isSome) = _
    rw [hlink]
    rfl
  have e4 : PyVal.get (.dict snap) "creation_time"
      = .ok (snap.lookup "creation_time") := rfl
  have e5 : PyVal.get (.dict ikvs) "endDate" = .ok (ikvs.lookup "endDate") := rfl
  rcases hcards with hc | hc
  · have e2 : PyVal.getD (.dict snap) "cards" (pyList [pyDict []])
        = .ok (pyList [pyDict []]) := by
      show Except.ok ((snap.lookup "cards").getD (pyList [pyDict []])) = _
      rw [hc]
      rfl
    unfold extract_item
    simp only [e1, exceptOkBind]
    simp only [e2, exceptOkBind]
    simp only [e3, exceptOkBind]
    simp only [Bool.false_eq_true, if_false]
    simp only [cardFields_one_empty_card, exceptOkBind]
    simp only [e4, exceptOkBind]
    simp only [hct, exceptOkBind]
    simp only [e5, exceptOkBind]
    simp only [hed, exceptOkBind]
    rfl
  · have e2 : PyVal.getD (.dict snap) "cards" (pyList [pyDict []])
        = .ok (pyList []) := by
      show Except.ok ((snap.lookup "cards").getD (pyList [pyDict []])) = _
      rw [hc]
      rfl
    unfold extract_item
    simp only [e1, exceptOkBind]
    simp only [e2, exceptOkBind]
    simp only [e3, exceptOkBind]
    simp only [Bool.false_eq_true, if_false]
    simp only [cardFields_empty_cards, exceptOkBind]
    simp only [e4, exceptOkBind]
    simp only [hct, exceptOkBind]
    simp only [e5, exceptOkBind]
    simp only [hed, exceptOkBind]
    rfl

theorem c10_missing_card (ikvs snap : PyDict) (ct ed : Option String)
    (hs : (ikvs.lookup "snapshot").getD (pyDict []) = .dict snap)
    (hlink : snap.lookup "link_url" = none)
    (hcards : snap.lookup "cards" = none ∨ snap.lookup "cards" = some (pyList []))
    (hct : dateField (snap.lookup "creation_time") = .ok ct)
    (hed : dateField (ikvs.lookup "endDate") = .ok ed) :
    process_ads_data (PyList.ofList [.dict ikvs])
      = .ok [defaultCardRecord ikvs snap ct ed]
    ∧ dictLookup (defaultCardRecord ikvs snap ct ed) "link_url" = some (.str "")
    ∧ dictLookup (defaultCardRecord ikvs snap ct ed) "body" = some (.str "")
    ∧ dictLookup (defaultCardRecord ikvs snap ct ed) "cta_text" = some (.str "")
    ∧ dictLookup (defaultCardRecord ikvs snap ct ed) "title" = some (.str "")
    ∧ dictLookup (defaultCardRecord ikvs snap ct ed) "original_image_url" = some (.str "")
    ∧ dictLookup (defaultCardRecord ikvs snap ct ed) "original_video_url" = some (.str "")
    ∧ dictLookup (defaultCardRecord ikvs snap ct ed) "link_description" = some (.str "") := by
  have hproc : process_ads_data (PyList.ofList [.dict ikvs])
      = (extract_item (.dict ikvs)) >>= fun r =>
          (process_ads_data .nil) >>= fun tail => .ok (r :: tail) := rfl
  have hext := extract_item_cardless ikvs snap ct ed hs hlink hcards hct hed
  refine ⟨?_, rfl, rfl, rfl, rfl, rfl, rfl, rfl⟩
  rw [hproc, hext]
  rfl

/-- C10 (witness): a concrete record with an empty snapshot and an
`adid`. -/
theorem c10_witness :
    process_ads_data (PyList.ofList
      [.dict (PyDict.ofList [("snapshot", pyDict []), ("adid", PyVal.str "9")])])
      = .ok [defaultCardRecord
          (PyDict.ofList [("snapshot", pyDict []), ("adid", PyVal.str "9")])
          PyDict.nil none none] :=
  (c10_missing_card (PyDict.ofList [("snapshot", pyDict []), ("adid", PyVal.str "9")])
    PyDict.nil none none rfl rfl (Or.inl rfl) rfl rfl).1

/-! ### Flattening lemmas (C7) -/

/-- Python `isinstance(item, list)` (source line 106). -/
def isListVal : PyVal → Bool
  | .list _ => true
  | _ => false

/-- Associativity helper: producing a singleton and appending equals
consing. -/
theorem singleton_bind (e : Except PyErr PyVal) (pr : Except PyErr (List PyVal)) :
    ((e >>= fun r => Except.ok [r]) >>= fun h => pr >>= fun t => Except.ok (h ++ t))
      = (e >>= fun r => pr >>= fun t => Except.ok (r :: t)) := by
  cases e <;> rfl

/-- One step of the outer loop, expressed through `process_single`. -/
theorem process_cons (v : PyVal) (rest : PyList) :
    process_ads_data (PyList.cons v rest)
      = (process_single v) >>= fun h =>
        (process_ads_data rest) >>= fun t => .ok (h ++ t) := by
  cases v with
  | list subs => rfl
  | str s => exact (singleton_bind (extract_item (.str s)) (process_ads_data rest)).symm
  | int n => exact (singleton_bind (extract_item (.int n)) (process_ads_data rest)).symm
  | pynone => exact (singleton_bind (extract_item .pynone) (process_ads_data rest)).symm
  | bytes s => exact (singleton_bind (extract_item (.bytes s)) (process_ads_data rest)).symm
  | dict kvs => exact (singleton_bind (extract_item (.dict kvs)) (process_ads_data rest)).symm

theorem exceptErrBind {A B : Type} (e : PyErr) (f : A → Except PyErr B) :
    (Except.error e >>= f) = .error e := rfl

theorem ofList_cons (x : PyVal) (l : List PyVal) :
    PyList.ofList (x :: l) = PyList.cons x (PyList.ofList l) := rfl

/-- The outer loop is a homomorphism for list concatenation. -/
theorem process_ofList_append (xs ys : List PyVal) :
    process_ads_data (PyList.ofList (xs ++ ys))
      = (process_ads_data (PyList.ofList xs)) >>= fun a =>
        (process_ads_data (PyList.ofList ys)) >>= fun b => .ok (a ++ b) := by
  induction xs with
  | nil =>
    show process_ads_data (PyList.ofList ys)
      = Except.ok [] >>= fun a =>
        (process_ads_data (PyList.ofList ys)) >>= fun b => Except.ok (a ++ b)
    cases h : process_ads_data (PyList.ofList ys) with
    | error e => rfl
    | ok b => rfl
  | cons x xs' ih =>
    simp only [List.cons_append, ofList_cons]
    rw [process_cons x (PyList.ofList (xs' ++ ys)), process_cons x (PyList.ofList xs'), ih]
    cases hx : process_single x with
    | error e => rfl
    | ok h1 =>
      cases ha : process_ads_data (PyList.ofList xs') with
      | error e => rfl
      | ok a =>
        cases hb : process_ads_data (PyList.ofList ys) with
        | error e => rfl
        | ok b => exact congrArg Except.ok (List.append_assoc h1 a b).symm

/-- A group of non-list entries whose extractions all succeed processes
to exactly the list of their records, in order. -/
theorem process_group_of_mapM (g : List PyVal) (B : List PyVal)
    (hnl : ∀ s ∈ g, isListVal s = false)
    (hB : g.mapM extract_item = .ok B) :
    process_group (PyList.ofList g) = .ok B := by
  induction g generalizing B with
  | nil =>
    simp only [List.mapM_nil, pure, Except.pure] at hB
    cases hB
    rfl
  | cons s ss ih =>
    rw [List.mapM_cons] at hB
    obtain ⟨b, hb, hB⟩ := bind_ok hB
    obtain ⟨bs, hbs, hpure⟩ := bind_ok hB
    have hpure' : b :: bs = B := by
      simpa [pure, Except.pure] using hpure
    have hs : process_single s = .ok [b] := by
      have hnls := hnl s (by simp)
      cases s with
      | list subs => simp [isListVal] at hnls
      | str t => show extract_item (.str t) >>= _ = _; rw [hb, exceptOkBind]
      | int n => show extract_item (.int n) >>= _ = _; rw [hb, exceptOkBind]
      | pynone => show extract_item .pynone >>= _ = _; rw [hb, exceptOkBind]
      | bytes t => show extract_item (.bytes t) >>= _ = _; rw [hb, exceptOkBind]
      | dict kvs => show extract_item (.dict kvs) >>= _ = _; rw [hb, exceptOkBind]
    show (process_single s) >>= (fun h => (process_group (PyList.ofList ss)) >>= fun t => Except.ok (h ++ t)) = _
    rw [hs, exceptOkBind, ih bs (fun r hr => hnl r (List.mem_cons_of_mem _ hr)) hbs,
      exceptOkBind, ← hpure']
    rfl

/-- `mapM` over `Except` preserves length on success. -/
theorem mapM_ok_length (g : List PyVal) (B : List PyVal)
    (hB : g.mapM extract_item = .ok B) : B.length = g.length := by
  induction g generalizing B with
  | nil =>
    simp only [List.mapM_nil, pure, Except.pure] at hB
    cases hB
    rfl
  | cons s ss ih =>
    rw [List.mapM_cons] at hB
    obtain ⟨b, _, hB⟩ := bind_ok hB
    obtain ⟨bs, hbs, hpure⟩ := bind_ok hB
    have hpure' : b :: bs = B := by
      simpa [pure, Except.pure] using hpure
    rw [← hpure']
    simp [ih bs hbs]

/-- C7: processing replaces a list-shaped entry holding `n` single
(non-list) records by exactly those records' `n` canonical outputs,
contiguously at the entry's position, with the surrounding outputs in
input order. -/
theorem c7_group_flattening (pre g post : List PyVal) (A B C : List PyVal)
    (hnl : ∀ s ∈ g, isListVal s = false)
    (hB : g.mapM extract_item = .ok B)
    (hpre : process_ads_data (PyList.ofList pre) = .ok A)
    (hpost : process_ads_data (PyList.ofList post) = .ok C) :
    process_ads_data (PyList.ofList (pre ++ pyList g :: post)) = .ok (A ++ (B ++ C))
    ∧ B.length = g.length := by
  refine ⟨?_, mapM_ok_length g B hB⟩
  rw [process_ofList_append pre (pyList g :: post), hpre, exceptOkBind,
    ofList_cons, process_cons, hpost]
  have hsingle : process_single (pyList g) = .ok B := by
    show process_group (PyList.ofList g) = .ok B
    exact process_group_of_mapM g B hnl hB
  rw [hsingle, exceptOkBind, exceptOkBind]
  rfl

/-- C7 (witness): one preceding single record, then a group of two
records, processed to three canonical records in order. -/
theorem c7_witness :
    process_ads_data (PyList.ofList
      ([pyDict [("adid", PyVal.str "a")]]
        ++ pyList [pyDict [], pyDict [("adid", PyVal.str "b")]] :: []))
      = .ok ([defaultCardRecord (PyDict.ofList [("adid", PyVal.str "a")]) PyDict.nil none none]
          ++ ([defaultCardRecord PyDict.nil PyDict.nil none none,
               defaultCardRecord (PyDict.ofList [("adid", PyVal.str "b")]) PyDict.nil none none]
            ++ []))
    ∧ ([defaultCardRecord PyDict.nil PyDict.nil none none,
        defaultCardRecord (PyDict.ofList [("adid", PyVal.str "b")]) PyDict.nil none none].length
        = [pyDict [], pyDict [("adid", PyVal.str "b")]].length) :=
  c7_group_flattening
    [pyDict [("adid", PyVal.str "a")]]
    [pyDict [], pyDict [("adid", PyVal.str "b")]]
    []
    [defaultCardRecord (PyDict.ofList [("adid", PyVal.str "a")]) PyDict.nil none none]
    [defaultCardRecord PyDict.nil PyDict.nil none none,
     defaultCardRecord (PyDict.ofList [("adid", PyVal.str "b")]) PyDict.nil none none]
    []
    (by decide)
    rfl
    rfl
    rfl

/-! ### Reprocessing canonical output (C6) -/

mutual

/-- `ensure_serializable` is idempotent on values. -/
theorem es_idem : (v : PyVal) →
    ensure_serializable (ensure_serializable v) = ensure_serializable v
  | .str _ => rfl
  | .int _ => rfl
  | .pynone => rfl
  | .bytes _ => rfl
  | .list xs => congrArg PyVal.list (esl_idem xs)
  | .dict kvs => congrArg PyVal.dict (esd_idem kvs)

/-- `ensure_serializable` is idempotent on list spines. -/
theorem esl_idem : (xs : PyList) →
    ensure_serializableList (ensure_serializableList xs) = ensure_serializableList xs
  | .nil => rfl
  | .cons v rest => by
    show PyList.cons (ensure_serializable (ensure_serializable v))
        (ensure_serializableList (ensure_serializableList rest)) = _
    rw [es_idem v, esl_idem rest]
    rfl

/-- `ensure_serializable` is idempotent on dict spines. -/
theorem esd_idem : (kvs : PyDict) →
    ensure_serializableDict (ensure_serializableDict kvs) = ensure_serializableDict kvs
  | .nil => rfl
  | .cons k v rest => by
    show PyDict.cons k (ensure_serializable (ensure_serializable v))
        (ensure_serializableDict (ensure_serializableDict rest)) = _
    rw [es_idem v, esd_idem rest]
    rfl

end

/-- A canonical record as produced by `extract_item`: a dict that lacks
the raw-side keys `snapshot`, `endDate`, `pageID` and `pageName` (it has
the output keys `pageid`/`pagename`/`end_date` instead). -/
def isCanonical (r : PyVal) : Prop :=
  ∃ kvs : PyDict, r = .dict kvs
    ∧ kvs.lookup "snapshot" = none
    ∧ kvs.lookup "endDate" = none
    ∧ kvs.lookup "pageID" = none
    ∧ kvs.lookup "pageName" = none

/-- What a second application of `process_ads_data` does to one of its
own output records: every field is re-derived from a missing snapshot and
resets to its default; only `adid` and `collationCount` are read back
from the record itself. -/
def wipe_record (r : PyVal) : PyVal :=
  ensure_serializable (mkRecord
    ((dictLookup r "adid").getD (.str ""))
    (.str "") (.str "") (.str "") (.str "") (.str "") (.str "") (.str "")
    (.str "") (.str "")
    none none
    ((dictLookup r "collationCount").getD (.int 0))
    (.str "") (.str "")
    (extract_domain "") (extract_from_url "" "sqs") (extract_from_url "" "atxt"))

/-- On a record without `pageID`/`pageName` keys, the card-less default
record collapses to the wipe of the record. -/
theorem defaultCardRecord_eq_wipe (kvs : PyDict)
    (h1 : kvs.lookup "pageID" = none) (h2 : kvs.lookup "pageName" = none) :
    defaultCardRecord kvs PyDict.nil none none = wipe_record (.dict kvs) := by
  unfold defaultCardRecord wipe_record dictLookup
  rw [h1, h2]
  rfl

/-- A wiped record is itself canonical. -/
theorem wipe_canonical (r : PyVal) : isCanonical (wipe_record r) :=
  ⟨_, rfl, rfl, rfl, rfl, rfl⟩

/-- Wiping is idempotent. -/
theorem wipe_wipe (r : PyVal) : wipe_record (wipe_record r) = wipe_record r := by
  unfold wipe_record
  generalize (dictLookup r "adid").getD (PyVal.str "") = a
  generalize (dictLookup r "collationCount").getD (PyVal.int 0) = c
  have e1 : dictLookup (ensure_serializable (mkRecord a (.str "") (.str "")
      (.str "") (.str "") (.str "") (.str "") (.str "") (.str "") (.str "")
      none none c (.str "") (.str "") (extract_domain "")
      (extract_from_url "" "sqs") (extract_from_url "" "atxt"))) "adid"
      = some (ensure_serializable a) := rfl
  have e2 : dictLookup (ensure_serializable (mkRecord a (.str "") (.str "")
      (.str "") (.str "") (.str "") (.str "") (.str "") (.str "") (.str "")
      none none c (.str "") (.str "") (extract_domain "")
      (extract_from_url "" "sqs") (extract_from_url "" "atxt"))) "collationCount"
      = some (ensure_serializable c) := rfl
  rw [e1, e2]
  show ensure_serializable (mkRecord (ensure_serializable a) (.str "") (.str "")
      (.str "") (.str "") (.str "") (.str "") (.str "") (.str "") (.str "")
      none none (ensure_serializable c) (.str "") (.str "") (extract_domain "")
      (extract_from_url "" "sqs") (extract_from_url "" "atxt")) = _
  simp only [mkRecord, pyDict, PyDict.ofList, optToPy, ensure_serializable,
    ensure_serializableDict, es_idem]

/-- Every record returned by `extract_item` is canonical: a dict carrying
the output schema, without the raw-side keys. -/
theorem extract_item_shape (item r : PyVal) (h : extract_item item = .ok r) :
    isCanonical r := by
  unfold extract_item at h
  obtain ⟨snapshot, _, h⟩ := bind_ok h
  obtain ⟨cards, _, h⟩ := bind_ok h
  obtain ⟨hasLink, _, h⟩ := bind_ok h
  cases hasLink with
  | true =>
    obtain ⟨fields, _, h⟩ := bind_ok h
    obtain ⟨f1, f2, f3, f4, f5, f6, f7⟩ := fields
    obtain ⟨ctr, _, h⟩ := bind_ok h
    obtain ⟨edr, _, h⟩ := bind_ok h
    obtain ⟨ct, _, h⟩ := bind_ok h
    obtain ⟨ed, _, h⟩ := bind_ok h
    obtain ⟨adid, _, h⟩ := bind_ok h
    obtain ⟨pageid, _, h⟩ := bind_ok h
    obtain ⟨pagename, _, h⟩ := bind_ok h
    obtain ⟨caption, _, h⟩ := bind_ok h
    obtain ⟨cc, _, h⟩ := bind_ok h
    obtain ⟨df, _, h⟩ := bind_ok h
    obtain ⟨lu, _, h⟩ := bind_ok h
    injection h with h
    subst h
    exact ⟨_, rfl, rfl, rfl, rfl, rfl⟩
  | false =>
    obtain ⟨fields, _, h⟩ := bind_ok h
    obtain ⟨f1, f2, f3, f4, f5, f6, f7⟩ := fields
    obtain ⟨ctr, _, h⟩ := bind_ok h
    obtain ⟨edr, _, h⟩ := bind_ok h
    obtain ⟨ct, _, h⟩ := bind_ok h
    obtain ⟨ed, _, h⟩ := bind_ok h
    obtain ⟨adid, _, h⟩ := bind_ok h
    obtain ⟨pageid, _, h⟩ := bind_ok h
    obtain ⟨pagename, _, h⟩ := bind_ok h
    obtain ⟨caption, _, h⟩ := bind_ok h
    obtain ⟨cc, _, h⟩ := bind_ok h
    obtain ⟨df, _, h⟩ := bind_ok h
    obtain ⟨lu, _, h⟩ := bind_ok h
    injection h with h
    subst h
    exact ⟨_, rfl, rfl, rfl, rfl, rfl⟩

mutual

/-- Every record in a successful `process_ads_data` output is
canonical. -/
theorem process_canon : (xs : PyList) → (ys : List PyVal) →
    process_ads_data xs = .ok ys → ∀ r ∈ ys, isCanonical r
  | .nil, ys, h, r, hr => by
    injection h with h
    subst h
    exact absurd hr (List.not_mem_nil r)
  | .cons (.list subs) rest, ys, h, r, hr => by
    obtain ⟨g, hg, h⟩ := bind_ok h
    obtain ⟨t, ht, h⟩ := bind_ok h
    injection h with h
    subst h
    rcases List.mem_append.mp hr with h1 | h2
    · exact group_canon subs g hg r h1
    · exact process_canon rest t ht r h2
  | .cons (.str s) rest, ys, h, r, hr => by
    obtain ⟨r0, hr0, h⟩ := bind_ok h
    obtain ⟨t, ht, h⟩ := bind_ok h
    injection h with h
    subst h
    rcases List.mem_cons.mp hr with hm | hm
    · exact hm ▸ extract_item_shape _ _ hr0
    · exact process_canon rest t ht r hm
  | .cons (.int n) rest, ys, h, r, hr => by
    obtain ⟨r0, hr0, h⟩ := bind_ok h
    obtain ⟨t, ht, h⟩ := bind_ok h
    injection h with h
    subst h
    rcases List.mem_cons.mp hr with hm | hm
    · exact hm ▸ extract_item_shape _ _ hr0
    · exact process_canon rest t ht r hm
  | .cons .pynone rest, ys, h, r, hr => by
    obtain ⟨r0, hr0, h⟩ := bind_ok h
    obtain ⟨t, ht, h⟩ := bind_ok h
    injection h with h
    subst h
    rcases List.mem_cons.mp hr with hm | hm
    · exact hm ▸ extract_item_shape _ _ hr0
    · exact process_canon rest t ht r hm
  | .cons (.bytes s) rest, ys, h, r, hr => by
    obtain ⟨r0, hr0, h⟩ := bind_ok h
    obtain ⟨t, ht, h⟩ := bind_ok h
    injection h with h
    subst h
    rcases List.mem_cons.mp hr with hm | hm
    · exact hm ▸ extract_item_shape _ _ hr0
    · exact process_canon rest t ht r hm
  | .cons (.dict kvs) rest, ys, h, r, hr => by
    obtain ⟨r0, hr0, h⟩ := bind_ok h
    obtain ⟨t, ht, h⟩ := bind_ok h
    injection h with h
    subst h
    rcases List.mem_cons.mp hr with hm | hm
    · exact hm ▸ extract_item_shape _ _ hr0
    · exact process_canon rest t ht r hm

/-- Every record in a successful `process_group` output is canonical. -/
theorem group_canon : (subs : PyList) → (ys : List PyVal) →
    process_group subs = .ok ys → ∀ r ∈ ys, isCanonical r
  | .nil, ys, h, r, hr => by
    injection h with h
    subst h
    exact absurd hr (List.not_mem_nil r)
  | .cons v rest, ys, h, r, hr => by
    obtain ⟨h1, hh1, h⟩ := bind_ok h
    obtain ⟨t, ht, h⟩ := bind_ok h
    injection h with h
    subst h
    rcases List.mem_append.mp hr with hm | hm
    · exact single_canon v h1 hh1 r hm
    · exact group_canon rest t ht r hm

/-- Every record in a successful `process_single` output is canonical. -/
theorem single_canon : (v : PyVal) → (ys : List PyVal) →
    process_single v = .ok ys → ∀ r ∈ ys, isCanonical r
  | .list subs, ys, h, r, hr => group_canon subs ys h r hr
  | .str s, ys, h, r, hr => by
    obtain ⟨r0, hr0, h⟩ := bind_ok h
    injection h with h
    subst h
    exact (List.mem_singleton.mp hr) ▸ extract_item_shape _ _ hr0
  | .int n, ys, h, r, hr => by
    obtain ⟨r0, hr0, h⟩ := bind_ok h
    injection h with h
    subst h
    exact (List.mem_singleton.mp hr) ▸ extract_item_shape _ _ hr0
  | .pynone, ys, h, r, hr => by
    obtain ⟨r0, hr0, h⟩ := bind_ok h
    injection h with h
    subst h
    exact (List.mem_singleton.mp hr) ▸ extract_item_shape _ _ hr0
  | .bytes s, ys, h, r, hr => by
    obtain ⟨r0, hr0, h⟩ := bind_ok h
    injection h with h
    subst h
    exact (List.mem_singleton.mp hr) ▸ extract_item_shape _ _ hr0
  | .dict kvs, ys, h, r, hr => by
    obtain ⟨r0, hr0, h⟩ := bind_ok h
    injection h with h
    subst h
    exact (List.mem_singleton.mp hr) ▸ extract_item_shape _ _ hr0

end

/-- Reprocessing one canonical record yields its wipe. -/
theorem process_single_canonical (r : PyVal) (hc : isCanonical r) :
    process_single r = .ok [wipe_record r] := by
  obtain ⟨kvs, rfl, h1, h2, h3, h4⟩ := hc
  have hs : (kvs.lookup "snapshot").getD (pyDict []) = .dict PyDict.nil := by
    rw [h1]
    rfl
  have hed : dateField (kvs.lookup "endDate") = .ok none := by
    rw [h2]
    rfl
  have hext := extract_item_cardless kvs PyDict.nil none none hs rfl (Or.inl rfl)
    rfl hed
  show extract_item (.dict kvs) >>= _ = _
  rw [hext, exceptOkBind, defaultCardRecord_eq_wipe kvs h3 h4]

/-- Reprocessing a list of canonical records yields their wipes, in
order. -/
theorem process_map_wipe (ys : List PyVal) (h : ∀ r ∈ ys, isCanonical r) :
    process_ads_data (PyList.ofList ys) = .ok (ys.map wipe_record) := by
  induction ys with
  | nil => rfl
  | cons r rest ih =>
    rw [ofList_cons, process_cons, process_single_canonical r (h r (by simp)),
      exceptOkBind, ih (fun q hq => h q (List.mem_cons_of_mem _ hq)), exceptOkBind]
    rfl

/-- Composing a successful run with a second run, for stating
idempotence as the claim does. -/
def reprocess (e : Except PyErr (List PyVal)) : Except PyErr (List PyVal) :=
  match e with
  | .ok ys => process_ads_data (PyList.ofList ys)
  | .error err => .error err

/-- C6 (counterexample): `process_ads_data` is not idempotent on its own
output: reprocessing the canonical record of a flat-snapshot ad resets
`pageid` (read back under the raw key `pageID`) and `link_url` (re-read
from a now-missing snapshot) to defaults, so the second output differs
from the first. -/
theorem c6_counterexample :
    reprocess (process_ads_data (PyList.ofList
      [pyDict [("snapshot", pyDict [("link_url", PyVal.str "https://x.com")]),
               ("adid", PyVal.str "1"), ("pageID", PyVal.str "p7")]]))
    ≠ process_ads_data (PyList.ofList
      [pyDict [("snapshot", pyDict [("link_url", PyVal.str "https://x.com")]),
               ("adid", PyVal.str "1"), ("pageID", PyVal.str "p7")]]) := by
  decide

/-- C6 (amended): a second application of `process_ads_data` to its own
successful output does not reproduce it; it maps each record to its
wipe — only `adid` and `collationCount` survive, every other field is
re-derived from a missing snapshot and resets to its default — and that
wiped output is a true fixed point, so the function is idempotent from
the second application onward (and on outputs whose other fields already
hold the defaults). -/
theorem c6_reprocess_wipes (xs : PyList) (ys : List PyVal)
    (h : process_ads_data xs = .ok ys) :
    process_ads_data (PyList.ofList ys) = .ok (ys.map wipe_record)
    ∧ process_ads_data (PyList.ofList (ys.map wipe_record))
        = .ok (ys.map wipe_record) := by
  have hcanon := process_canon xs ys h
  refine ⟨process_map_wipe ys hcanon, ?_⟩
  have h2 : ∀ r ∈ ys.map wipe_record, isCanonical r := by
    intro r hr
    obtain ⟨q, _, rfl⟩ := List.mem_map.mp hr
    exact wipe_canonical q
  rw [process_map_wipe _ h2, List.map_map]
  congr 1
  exact List.map_congr_left (fun q _ => wipe_wipe q)

/-- C6 (witness): one concrete flat record; the second application wipes
`pageid`, the third reproduces the second. -/
theorem c6_witness :
    process_ads_data (PyList.ofList
      [defaultCardRecord (PyDict.ofList
        [("adid", PyVal.str "1"), ("pageID", PyVal.str "p7")]) PyDict.nil none none])
      = .ok ([defaultCardRecord (PyDict.ofList
          [("adid", PyVal.str "1"), ("pageID", PyVal.str "p7")]) PyDict.nil none none].map
            wipe_record) :=
  (c6_reprocess_wipes
    (PyList.ofList [pyDict [("adid", PyVal.str "1"), ("pageID", PyVal.str "p7")]])
    [defaultCardRecord (PyDict.ofList
      [("adid", PyVal.str "1"), ("pageID", PyVal.str "p7")]) PyDict.nil none none]
    rfl).1
